import Mathlib

/-!
Verification development for the UnrealIRCd extension-registry subset found in
`src/api-mtag.c` (message-tag handler registry) and `src/modules/channeldb.c`
(persistent channel database module), against the natural-language design
document of the repository.

The C code is shallowly embedded:

* The message-tag registry is a heap of `MessageTagHandler` records addressed
  by allocation identifiers (`Nat`), together with the `mtaghandlers` linked
  list represented as the list of identifiers in list order (head first, as
  produced by `AddListItem`, which prepends).  Capability back-references
  (`ClientCapability.mtag_handler`), per-module error codes
  (`Module.errorcode`) and per-module object lists (`Module.objects`,
  restricted to the `MOBJ_MTAG` objects) are association lists keyed by
  capability / module identifiers.  Function pointers are opaque `Nat` tokens.
* The channel database file format is a byte stream (`List Nat`, one `Nat`
  per byte, little-endian multi-byte integers as written by `write_data` on
  x86).  The helpers `write_data` / `write_int32` / `write_int64` /
  `write_str` / `read_data` / `read_str` live in parts of the repository that
  are not included under `src/`, so they are modelled from the spec
  ("versioned, length-prefixed record format"); everything else follows
  `channeldb.c` line by line.
-/

/-- Byte streams and C strings: one natural number per byte. -/
abbrev Bytes := List Nat

/-- Bytes of a Lean string literal, for readable sample inputs. -/
def strBytes (s : String) : Bytes := s.data.map Char.toNat

/-! ## Association lists (Nat-keyed maps standing for C pointers / tables) -/

/-- Lookup of the first binding of key `k` (a heap never holds two bindings
for the same allocation identifier). -/
def alookup {α : Type} : List (Nat × α) → Nat → Option α
  | [], _ => none
  | p :: t, k => if p.1 = k then some p.2 else alookup t k

/-- Replace the first binding of `k`, or append a fresh binding. -/
def aset {α : Type} : List (Nat × α) → Nat → α → List (Nat × α)
  | [], k, v => [(k, v)]
  | p :: t, k, v => if p.1 = k then (k, v) :: t else p :: aset t k v

/-- Update the first binding of `k` in place; no effect when `k` is absent. -/
def aupdate {α : Type} : List (Nat × α) → Nat → (α → α) → List (Nat × α)
  | [], _, _ => []
  | p :: t, k, f => if p.1 = k then (k, f p.2) :: t else p :: aupdate t k f

/-- Remove every binding of `k` (a well-formed heap has at most one). -/
def aerase {α : Type} : List (Nat × α) → Nat → List (Nat × α)
  | [], _ => []
  | p :: t, k => if p.1 = k then aerase t k else p :: aerase t k

/-- Keys of an association list. -/
def aKeys {α : Type} (l : List (Nat × α)) : List Nat := l.map Prod.fst

/-! ## Message-tag handler registry (`src/api-mtag.c`) -/

/-- Log severities that the embedded code emits (`ircd_log(LOG_ERROR, ...)`). -/
inductive Severity where
  | error
  | warn
deriving DecidableEq

def MODERR_NOERROR : Nat := 0

def MODERR_EXISTS : Nat := 1

def MTAG_HANDLER_FLAGS_NO_CAP_NEEDED : Nat := 1

/-- Embedding of `struct MessageTagHandler` (include/modules.h).  The
`prev`/`next` links live in `MTagState.order`; `name` is the `strdup`-ed
token; `is_ok` and `can_send` are opaque function-pointer tokens (0 = NULL);
`owner` is the owning module identifier; `clicap_handler` the associated
capability identifier. -/
structure MTagEntry where
  name : Bytes
  flags : Nat
  is_ok : Nat
  can_send : Nat
  owner : Option Nat
  clicap_handler : Option Nat
  unloaded : Bool
deriving DecidableEq

/-- Embedding of `MessageTagHandlerInfo` (include/modules.h), the registration
request.  Note the source's `MessageTagHandlerAdd` copies `flags`, `is_ok`
and `clicap_handler` from the request but never copies `can_send`. -/
structure MessageTagHandlerInfo where
  name : Bytes
  flags : Nat
  is_ok : Nat
  can_send : Nat
  clicap_handler : Option Nat
deriving DecidableEq

/-- Global state touched by api-mtag.c: the allocation heap, the
`mtaghandlers` list (identifiers in linked-list order, head first), the
allocation counter, the `mtag_handler` back-reference field of every
`ClientCapability` (by capability identifier), every module's `errorcode`
and its `MOBJ_MTAG` object list, and `loop.ircd_rehashing`. -/
structure MTagState where
  heap : List (Nat × MTagEntry)
  order : List Nat
  nextId : Nat
  caps : List (Nat × Option Nat)
  modErr : List (Nat × Nat)
  modObjs : List (Nat × List Nat)
  rehashing : Bool
deriving DecidableEq

/-- ASCII `tolower` on one byte, as `stricmp`'s comparison table applies. -/
def tolowerByte (b : Nat) : Nat := if 65 ≤ b ∧ b ≤ 90 then b + 32 else b

/-- Case-insensitive token comparison (`stricmp`). -/
def stricmpEq (a b : Bytes) : Bool := a.map tolowerByte == b.map tolowerByte

/-- Embedding of `MessageTagHandlerFind`: walk the `mtaghandlers` list and
return the first entry whose name matches case-insensitively. -/
def MessageTagHandlerFind (s : MTagState) (token : Bytes) : Option Nat :=
  s.order.find? (fun i =>
    match alookup s.heap i with
    | some e => stricmpEq token e.name
    | none => false)

/-- Find, paired with the record the returned pointer dereferences to.
When the list node dangles (impossible in states produced by the API, where
every listed identifier is allocated) this collapses to "not found". -/
def findEntry (s : MTagState) (token : Bytes) : Option (Nat × MTagEntry) :=
  match MessageTagHandlerFind s token with
  | some i => (alookup s.heap i).map (fun e => (i, e))
  | none => none

/-- Result of `MessageTagHandlerAdd`: the process aborts (after an
`ircd_log(LOG_ERROR, ...)`), or NULL is returned, or a handler pointer is
returned. -/
inductive AddResult where
  | aborted (sev : Severity)
  | nullResult
  | ok (i : Nat)
deriving DecidableEq

/-- Freshly `MyMallocEx`-allocated (zero-initialised) entry with its name
`strdup`-ed from the request. -/
def freshEntry (name : Bytes) : MTagEntry :=
  { name := name, flags := 0, is_ok := 0, can_send := 0,
    owner := none, clicap_handler := none, unloaded := false }

/-- Current `MOBJ_MTAG` object list of a module. -/
def getObjs (s : MTagState) (md : Nat) : List Nat :=
  (alookup s.modObjs md).getD []

/-- Tail of `MessageTagHandlerAdd` shared by the revive and new-entry paths
(lines 94-115): rebind `owner`/`flags`/`is_ok`/`clicap_handler`, update the
capability's reverse dependency, `AddListItem` into `mtaghandlers`, and
record the object plus `MODERR_NOERROR` on the owning module. -/
def mtagAddFinish (module : Option Nat) (mreq : MessageTagHandlerInfo)
    (i : Nat) (s : MTagState) : AddResult × MTagState :=
  let s2 := { s with heap := aupdate s.heap i (fun e0 =>
    { e0 with owner := module, flags := mreq.flags, is_ok := mreq.is_ok,
              clicap_handler := mreq.clicap_handler }) }
  let s3 := match mreq.clicap_handler with
    | some c => { s2 with caps := aset s2.caps c (some i) }
    | none => s2
  let s4 := { s3 with order := i :: s3.order }
  let s5 := match module with
    | some md =>
      { s4 with modObjs := aset s4.modObjs md (i :: getObjs s4 md),
                modErr := aset s4.modErr md MODERR_NOERROR }
    | none => s4
  (.ok i, s5)

/-- Embedding of `MessageTagHandlerAdd` (api-mtag.c lines 59-116).  Faithful
to this repository's source: the `AddListItem(m, mtaghandlers)` call at line
104 sits outside the new-entry branch, so it also runs when an existing
`unloaded` entry is revived. -/
def MessageTagHandlerAdd (module : Option Nat) (mreq : MessageTagHandlerInfo)
    (s : MTagState) : AddResult × MTagState :=
  if (mreq.flags &&& MTAG_HANDLER_FLAGS_NO_CAP_NEEDED != 0)
      && mreq.clicap_handler.isSome then
    (.aborted .error, s)
  else if (mreq.flags &&& MTAG_HANDLER_FLAGS_NO_CAP_NEEDED == 0)
      && mreq.clicap_handler.isNone then
    (.aborted .error, s)
  else
    match findEntry s mreq.name with
    | some (i, e) =>
      if e.unloaded then
        mtagAddFinish module mreq i
          { s with heap := aupdate s.heap i (fun e0 => { e0 with unloaded := false }) }
      else
        match module with
        | some md => (.nullResult, { s with modErr := aset s.modErr md MODERR_EXISTS })
        | none => (.nullResult, s)
    | none =>
      mtagAddFinish module mreq s.nextId
        { s with heap := aset s.heap s.nextId (freshEntry mreq.name),
                 nextId := s.nextId + 1 }

/-- Embedding of `unload_mtag_handler_commit` (lines 118-132): clear the
capability's `mtag_handler` back-reference, `DelListItem` the entry from
`mtaghandlers`, free the name and the entry.  (The `ircd_log` /
`sendto_realops` notices are not modelled.)  Never called on a freed
identifier by the API; such a call is a no-op here. -/
def unload_mtag_handler_commit (i : Nat) (s : MTagState) : MTagState :=
  match alookup s.heap i with
  | none => s
  | some e =>
    let s1 := match e.clicap_handler with
      | some c => { s with caps := aset s.caps c none }
      | none => s
    { s1 with order := s1.order.erase i, heap := aerase s1.heap i }

/-- Embedding of `MessageTagHandlerDel` (lines 139-159).  The record is read
once up front: in the non-rehash path the source frees `m` inside
`unload_mtag_handler_commit` and afterwards still reads `m->owner` and
writes `m->owner = NULL` through the stale pointer, which observably acts on
the values the object held (the write to freed memory is a no-op here). -/
def MessageTagHandlerDel (i : Nat) (s : MTagState) : MTagState :=
  match alookup s.heap i with
  | none => s
  | some e =>
    let s1 :=
      if s.rehashing then
        { s with heap := aupdate s.heap i (fun e0 => { e0 with unloaded := true }) }
      else
        unload_mtag_handler_commit i s
    match e.owner with
    | none => s1
    | some md =>
      let s2 := { s1 with modObjs := aset s1.modObjs md ((getObjs s1 md).erase i) }
      { s2 with heap := aupdate s2.heap i (fun e0 => { e0 with owner := none }) }

/-- Body of the sweep loop of `unload_all_unused_mtag_handlers`: walk the
identifiers (the `m_next` pointer is saved before a potential commit, so
removing the current node does not disturb the walk). -/
def sweepList : List Nat → MTagState → MTagState
  | [], s => s
  | i :: rest, s =>
    let s1 := match alookup s.heap i with
      | some e => if e.unloaded then unload_mtag_handler_commit i s else s
      | none => s
    sweepList rest s1

/-- Embedding of `unload_all_unused_mtag_handlers` (lines 161-171): free
every handler still marked `unloaded`. -/
def unload_all_unused_mtag_handlers (s : MTagState) : MTagState :=
  sweepList s.order s

/-- Boolean version of "the entry at `j` is currently marked unloaded". -/
def isUnloadedB (s : MTagState) (j : Nat) : Bool :=
  match alookup s.heap j with
  | some e => e.unloaded
  | none => false

/-- Well-formedness of the registry state: the `mtaghandlers` list holds no
duplicate node and its members are exactly the allocated entries.  Every
state the C API produces from a sane boot state satisfies this, except after
the revive bug exercised in the C1 analysis. -/
def MTagWF (s : MTagState) : Prop :=
  s.order.Nodup ∧ (∀ i ∈ s.order, i ∈ aKeys s.heap) ∧
    (∀ i ∈ aKeys s.heap, i ∈ s.order)

/-! ## Channel database byte format (`src/modules/channeldb.c`) -/

/-- Little-endian value of a byte string (as `read_data` produces into a
fixed-width integer on x86). -/
def leVal : Bytes → Nat
  | [] => 0
  | b :: t => b + 256 * leVal t

/-- Little-endian encoding of the low `w` bytes of `n`, exactly the memory
image `write_data` emits for a `w`-byte unsigned integer holding `n`
(truncation to `w` bytes is the C cast). -/
def encUInt : Nat → Nat → Bytes
  | 0, _ => []
  | w + 1, n => n % 256 :: encUInt w (n / 256)

/-- Modelled from the spec: `read_data(fd, buf, k)` of the missing helper
file succeeds only on a full `k`-byte read ("length-prefixed record format",
"a reader can detect truncation").  Returns the bytes read and the rest of
the stream. -/
def readBytes : Nat → Bytes → Option (Bytes × Bytes)
  | 0, bs => some ([], bs)
  | _ + 1, [] => none
  | k + 1, b :: t => (readBytes k t).map (fun p => (b :: p.1, p.2))

/-- Read a `w`-byte little-endian unsigned integer (`read_data` into a
`uint32_t` / `uint64_t`). -/
def decUInt (w : Nat) (bs : Bytes) : Option (Nat × Bytes) :=
  (readBytes w bs).map (fun p => (leVal p.1, p.2))

/-- Modelled from the spec: `write_str` of the missing helper file
("length-prefixed" strings).  A 2-byte length prefix, with `0xffff` standing
for a NULL `char *`; a non-NULL string is its byte string (no NUL
terminator in the file).  Lengths are truncated to the 16-bit field. -/
def encStr : Option Bytes → Bytes
  | none => encUInt 2 0xffff
  | some s => encUInt 2 (s.length % 0x10000) ++ s.take (s.length % 0x10000)

/-- Modelled from the spec: `read_str`, inverse of `encStr`: read the 2-byte
length, `0xffff` yields NULL, otherwise read exactly that many bytes. -/
def decStr (bs : Bytes) : Option (Option Bytes × Bytes) :=
  match decUInt 2 bs with
  | none => none
  | some (len, r) =>
    if len = 0xffff then some (none, r)
    else (readBytes len r).map (fun p => (some p.1, p.2))

/-- One `Ban` list entry as serialised by `write_listmode`: the entry text,
the setter, and the set time (`l->banstr`, `l->who`, `l->when`). -/
structure BanEntry where
  banstr : Option Bytes
  who : Option Bytes
  seton : Nat
deriving DecidableEq

def MAGIC_CHANNEL_START : Nat := 0x11111111

def MAGIC_CHANNEL_END : Nat := 0x22222222

def CHANNELDB_VERSION : Nat := 100

/-- Bytes of one list entry (`write_str(banstr)`, `write_str(who)`,
`write_int64(when)`, channeldb.c lines 270-276). -/
def encBan (e : BanEntry) : Bytes :=
  encStr e.banstr ++ encStr e.who ++ encUInt 8 e.seton

/-- Embedding of `write_listmode` (lines 260-278): the 32-bit entry count,
then each entry in list order. -/
def write_listmode (l : List BanEntry) : Bytes :=
  encUInt 4 l.length ++ (l.map encBan).flatten

/-- The per-channel fields that `write_channel_entry` serialises and that
`read_channeldb` recovers and applies to the (created) channel: name,
creation time, the three topic fields, the two mode strings produced by
`channel_modes` and consumed by `set_channel_mode`, the mode lock, and the
three list modes. -/
structure ChannelRecord where
  chname : Option Bytes
  creationtime : Nat
  topic : Option Bytes
  topic_nick : Option Bytes
  topic_time : Nat
  modes1 : Option Bytes
  modes2 : Option Bytes
  mode_lock : Option Bytes
  banlist : List BanEntry
  exlist : List BanEntry
  invexlist : List BanEntry
deriving DecidableEq

/-- Embedding of `write_channel_entry` (lines 280-306). -/
def write_channel_entry (r : ChannelRecord) : Bytes :=
  encUInt 4 MAGIC_CHANNEL_START ++
  encStr r.chname ++
  encUInt 8 r.creationtime ++
  encStr r.topic ++
  encStr r.topic_nick ++
  encUInt 8 r.topic_time ++
  encStr r.modes1 ++
  encStr r.modes2 ++
  encStr r.mode_lock ++
  write_listmode r.banlist ++
  write_listmode r.exlist ++
  write_listmode r.invexlist ++
  encUInt 4 MAGIC_CHANNEL_END

/-- A channel as `write_channeldb` sees it: whether `has_channel_mode(ch,
'P')` holds, and the serialisable fields. -/
structure Channel where
  persistent : Bool
  crec : ChannelRecord
deriving DecidableEq

/-- The byte image `write_channeldb` produces (lines 218-234): version word,
64-bit count of `+P` channels, then one entry per `+P` channel in channel
list order. -/
def write_channeldb_bytes (chs : List Channel) : Bytes :=
  encUInt 4 CHANNELDB_VERSION ++
  encUInt 8 (chs.filter (fun c => c.persistent)).length ++
  ((chs.filter (fun c => c.persistent)).map (fun c => write_channel_entry c.crec)).flatten

/-- Embedding of `read_listmode` (lines 322-343): read the 32-bit count,
then prepend each decoded entry onto the channel's existing list
(`e->next = *lst; *lst = e`), so entries end up reversed relative to file
order.  Fails (the `R_SAFE` path returning 0) on any short read; entries
prepended before the failure remain on the list, which the loop state
threads explicitly here. -/
def decBans : Nat → Bytes → List BanEntry → Option (List BanEntry × Bytes)
  | 0, bs, acc => some (acc, bs)
  | k + 1, bs, acc =>
    match decStr bs with
    | none => none
    | some (b, r1) =>
      match decStr r1 with
      | none => none
      | some (w, r2) =>
        match decUInt 8 r2 with
        | none => none
        | some (t, r3) => decBans k r3 ({ banstr := b, who := w, seton := t } :: acc)

/-- Entry point of `read_listmode`: count, then the entries. -/
def read_listmode (bs : Bytes) (lst : List BanEntry) : Option (List BanEntry × Bytes) :=
  match decUInt 4 bs with
  | none => none
  | some (n, r) => decBans n r lst

/-- Outcome of parsing one channel record inside the `read_channeldb` loop
(lines 428-460): the start magic read fine but mismatched (`break` path); or
some `R_SAFE` read failed, in which case the channel may already have been
created and partially populated (`get_channel(..., CREATE)` happens after
the eight scalar fields, before the list modes); or every field, the three
lists and the end magic were read (the end magic may still mismatch). -/
inductive RecParse where
  | badMagic (m : Nat) (rest : Bytes)
  | shortRead (created : Option ChannelRecord)
  | done (r : ChannelRecord) (endMagic : Nat) (rest : Bytes)
deriving DecidableEq

/-- List-mode part of the record loop (lines 450-453): the channel exists
from here on (`get_channel(&me, chname, CREATE)` at line 443), so on a short
read the partially populated record is reported as created. -/
def parseRecordLists (base : ChannelRecord) (r8 : Bytes) : RecParse :=
  match read_listmode r8 [] with
  | none => .shortRead (some base)
  | some (bans, r9) =>
    let c1 := { base with banlist := bans }
    match read_listmode r9 [] with
    | none => .shortRead (some c1)
    | some (exl, r10) =>
      let c2 := { c1 with exlist := exl }
      match read_listmode r10 [] with
      | none => .shortRead (some c2)
      | some (inv, r11) =>
        let c3 := { c2 with invexlist := inv }
        match decUInt 4 r11 with
        | none => .shortRead (some c3)
        | some (em, r12) => .done c3 em r12

/-- One iteration of the `read_channeldb` record loop, lines 428-460. -/
def parseRecord (bs : Bytes) : RecParse :=
  match decUInt 4 bs with
  | none => .shortRead none
  | some (magic, r0) =>
    if magic ≠ MAGIC_CHANNEL_START then .badMagic magic r0
    else
      match decStr r0 with
      | none => .shortRead none
      | some (chname, r1) =>
        match decUInt 8 r1 with
        | none => .shortRead none
        | some (creationtime, r2) =>
          match decStr r2 with
          | none => .shortRead none
          | some (topic, r3) =>
            match decStr r3 with
            | none => .shortRead none
            | some (topic_nick, r4) =>
              match decUInt 8 r4 with
              | none => .shortRead none
              | some (topic_time, r5) =>
                match decStr r5 with
                | none => .shortRead none
                | some (modes1, r6) =>
                  match decStr r6 with
                  | none => .shortRead none
                  | some (modes2, r7) =>
                    match decStr r7 with
                    | none => .shortRead none
                    | some (mode_lock, r8) =>
                      parseRecordLists
                        { chname := chname, creationtime := creationtime,
                          topic := topic, topic_nick := topic_nick,
                          topic_time := topic_time, modes1 := modes1,
                          modes2 := modes2, mode_lock := mode_lock,
                          banlist := [], exlist := [], invexlist := [] } r8

/-- Result of `read_channeldb`: its return value, the channels it created
and populated (in creation order), and the count the final
`sendto_realops_and_log("[channeldb] Added %d ...")` reported, if that
notice was emitted at all. -/
structure ReadOutcome where
  ret : Nat
  recs : List ChannelRecord
  reported : Option Nat
deriving DecidableEq

/-- The end-of-loop report (lines 465-466): only emitted when `added` is
non-zero. -/
def mkReport (added : Nat) : Option Nat :=
  if added = 0 then none else some added

/-- The record loop of `read_channeldb` (lines 415-461): `count` iterations;
a wrong start magic breaks out (return 1 after the report); a short read
returns 0 immediately, skipping the report; a wrong end magic breaks out
after the record was counted (`added++` precedes the check). -/
def readRecords : Nat → Bytes → List ChannelRecord → Nat → ReadOutcome
  | 0, _, acc, added => { ret := 1, recs := acc.reverse, reported := mkReport added }
  | k + 1, bs, acc, added =>
    match parseRecord bs with
    | .badMagic _ _ => { ret := 1, recs := acc.reverse, reported := mkReport added }
    | .shortRead created =>
      { ret := 0,
        recs := (match created with | some c => c :: acc | none => acc).reverse,
        reported := none }
    | .done r em rest =>
      if em ≠ MAGIC_CHANNEL_END then
        { ret := 1, recs := (r :: acc).reverse, reported := mkReport (added + 1) }
      else readRecords k rest (r :: acc) (added + 1)

/-- Body of `read_channeldb` once the file is open (lines 405-473): version
word (reject versions above `channeldb_version`), 64-bit record count, then
the record loop. -/
def readBody (bs : Bytes) : ReadOutcome :=
  match decUInt 4 bs with
  | none => { ret := 0, recs := [], reported := none }
  | some (version, r0) =>
    if version > CHANNELDB_VERSION then { ret := 0, recs := [], reported := none }
    else
      match decUInt 8 r0 with
      | none => { ret := 0, recs := [], reported := none }
      | some (count, r1) => readRecords count r1 [] 0

/-- How `fopen(cfg.database, "rb")` went: the file opened with these
contents, or it did not exist (`errno == ENOENT`), or some other open
error occurred. -/
inductive OpenResult where
  | ok (content : Bytes)
  | enoent
  | otherError
deriving DecidableEq

/-- Embedding of `read_channeldb` (lines 367-473) over the open result
(lines 391-403): a missing file is the first-boot case and returns 1 with no
channel touched; any other open failure returns 0 with no channel touched. -/
def read_channeldb : OpenResult → ReadOutcome
  | .enoent => { ret := 1, recs := [], reported := none }
  | .otherError => { ret := 0, recs := [], reported := none }
  | .ok bs => readBody bs

/-! ## Failure model of `write_channeldb` (lines 197-258) -/

/-- The byte chunks of one serialised list mode, one chunk per `W_SAFE`
write of `write_listmode`. -/
def listmodeChunks (l : List BanEntry) : List Bytes :=
  encUInt 4 l.length ::
    (l.map (fun e => [encStr e.banstr, encStr e.who, encUInt 8 e.seton])).flatten

/-- The byte chunks of one serialised channel entry, one chunk per `W_SAFE`
write of `write_channel_entry`. -/
def entryChunks (r : ChannelRecord) : List Bytes :=
  [encUInt 4 MAGIC_CHANNEL_START, encStr r.chname, encUInt 8 r.creationtime,
   encStr r.topic, encStr r.topic_nick, encUInt 8 r.topic_time,
   encStr r.modes1, encStr r.modes2, encStr r.mode_lock] ++
  listmodeChunks r.banlist ++ listmodeChunks r.exlist ++
  listmodeChunks r.invexlist ++ [encUInt 4 MAGIC_CHANNEL_END]

/-- Every `W_SAFE` write `write_channeldb` attempts, in order: the version
word, the `+P` channel count, then each `+P` channel's entry chunks. -/
def channeldbChunks (chs : List Channel) : List Bytes :=
  encUInt 4 CHANNELDB_VERSION ::
  encUInt 8 (chs.filter (fun c => c.persistent)).length ::
  ((chs.filter (fun c => c.persistent)).map (fun c => entryChunks c.crec)).flatten

/-- Success of the fallible file operations, numbered in program order:
operation 0 is the `fopen` of the temporary file, operations `1 .. n` are
the `n` chunk writes, operation `n+1` is `fclose`, operation `n+2` the
`rename`.  `env k = true` means operation `k` would succeed if attempted. -/
def writesOk (env : Nat → Bool) : Nat → List Bytes → Bool
  | _, [] => true
  | k, _ :: cs => env k && writesOk env (k + 1) cs

/-- Observable outcome of `write_channeldb`: the return value, the temporary
file path it wrote to, whether the `rename` over the real database was
attempted, and whether it succeeded (the database file was replaced). -/
structure WriteOutcome where
  ret : Nat
  tmpPath : String
  renameAttempted : Bool
  dbReplaced : Bool
deriving DecidableEq

/-- Embedding of `write_channeldb` (lines 197-258) over the operation
success environment: open `cfg.database ++ ".tmp"` for writing (the
`snprintf` into a 512-byte buffer is modelled without its truncation), bail
out with 0 on the first failed `W_SAFE` write, bail out with 0 on `fclose`
failure, and only then `rename` the temporary file over the database. -/
def write_channeldb (env : Nat → Bool) (db : String) (chs : List Channel) :
    WriteOutcome :=
  let tmp := db ++ ".tmp"
  let cs := channeldbChunks chs
  if env 0 = false then
    { ret := 0, tmpPath := tmp, renameAttempted := false, dbReplaced := false }
  else if writesOk env 1 cs = false then
    { ret := 0, tmpPath := tmp, renameAttempted := false, dbReplaced := false }
  else if env (1 + cs.length) = false then
    { ret := 0, tmpPath := tmp, renameAttempted := false, dbReplaced := false }
  else if env (2 + cs.length) = false then
    { ret := 0, tmpPath := tmp, renameAttempted := true, dbReplaced := false }
  else
    { ret := 1, tmpPath := tmp, renameAttempted := true, dbReplaced := true }

/-! ## Module lifecycle of channeldb (lines 70-122) -/

/-- Modelled from the spec: the `LoadPersistentInt` / `SavePersistentInt`
bridge (declared in include/modules.h lines 898-901; its implementation is
not under `src/`) keeps "a named scalar in process-wide storage that
survives that module's own unload/reload cycle", here the one slot the
module uses for `channeldb_loaded`.  `loadedVar` is the module-file static
`channeldb_loaded` (line 70), re-initialised to 0 whenever the module binary
is loaded afresh; `dbReads` / `dbWrites` count `read_channeldb` /
`write_channeldb` invocations. -/
structure ChanneldbProc where
  store : Option Int
  loadedVar : Int
  dbReads : Nat
  dbWrites : Nat
deriving DecidableEq

/-- Process start: nothing stashed, static initialiser `= 0`, no database
traffic yet. -/
def channeldbBoot : ChanneldbProc :=
  { store := none, loadedVar := 0, dbReads := 0, dbWrites := 0 }

/-- MOD_INIT (lines 79-89): `LoadPersistentInt(modinfo, channeldb_loaded)`
restores the stashed value when one exists, otherwise leaves the variable
alone. -/
def channeldbModInit (s : ChanneldbProc) : ChanneldbProc :=
  match s.store with
  | some v => { s with loadedVar := v }
  | none => s

/-- MOD_LOAD (lines 91-114): read the database only when `channeldb_loaded`
is still 0, then set the flag.  (The `.corrupt` rename on a failed read and
the periodic save event do not matter to the flag protocol.) -/
def channeldbModLoad (s : ChanneldbProc) : ChanneldbProc :=
  if s.loadedVar = 0 then
    { s with dbReads := s.dbReads + 1, loadedVar := 1 }
  else s

/-- MOD_UNLOAD (lines 116-122): save the database and stash
`channeldb_loaded` via `SavePersistentInt`. -/
def channeldbModUnload (s : ChanneldbProc) : ChanneldbProc :=
  { s with dbWrites := s.dbWrites + 1, store := some s.loadedVar }

/-- One rehash cycle for this module: unload the old instance, load the
module binary afresh (statics reset), run MOD_INIT, run MOD_LOAD. -/
def channeldbRehash (s : ChanneldbProc) : ChanneldbProc :=
  channeldbModLoad (channeldbModInit ({ channeldbModUnload s with loadedVar := 0 }))

/-! ## Validity predicates and concrete sample inputs -/

/-- A string field survives the 16-bit length prefix: strictly shorter than
`0xffff` (which is the NULL sentinel). -/
def strOk (os : Option Bytes) : Prop := (os.getD []).length < 65535

/-- A list mode fits its 32-bit count and every entry's fields fit their
encodings. -/
def bansOk (l : List BanEntry) : Prop :=
  l.length < 4294967296 ∧
    ∀ e ∈ l, strOk e.banstr ∧ strOk e.who ∧ e.seton < 18446744073709551616

/-- Every field of a channel record fits its on-disk encoding (what any
record produced by the in-memory structures satisfies). -/
def recOk (r : ChannelRecord) : Prop :=
  strOk r.chname ∧ strOk r.topic ∧ strOk r.topic_nick ∧ strOk r.modes1 ∧
    strOk r.modes2 ∧ strOk r.mode_lock ∧
    r.creationtime < 18446744073709551616 ∧
    r.topic_time < 18446744073709551616 ∧
    bansOk r.banlist ∧ bansOk r.exlist ∧ bansOk r.invexlist

/-- The record with its three list modes reversed: what one
write-then-read round trip turns a record into, because `read_listmode`
prepends entries. -/
def revRec (r : ChannelRecord) : ChannelRecord :=
  { r with banlist := r.banlist.reverse, exlist := r.exlist.reverse,
           invexlist := r.invexlist.reverse }

/-- Sample registration request: a tag needing no capability. -/
def mtagReqNoCap : MessageTagHandlerInfo :=
  { name := strBytes "account-tag", flags := MTAG_HANDLER_FLAGS_NO_CAP_NEEDED,
    is_ok := 7, can_send := 0, clicap_handler := none }

/-- Sample registration request bound to capability 6. -/
def mtagReqWithCap : MessageTagHandlerInfo :=
  { name := strBytes "reply-tag", flags := 0, is_ok := 8, can_send := 0,
    clicap_handler := some 6 }

/-- Contradictory request: claims no capability is needed and also supplies
a capability handler. -/
def mtagReqBad : MessageTagHandlerInfo :=
  { name := strBytes "bad-tag", flags := MTAG_HANDLER_FLAGS_NO_CAP_NEEDED,
    is_ok := 7, can_send := 0, clicap_handler := some 9 }

/-- An entry for "account-tag" marked unloaded (deleted during a rehash). -/
def entryUnloaded : MTagEntry :=
  { name := strBytes "account-tag", flags := MTAG_HANDLER_FLAGS_NO_CAP_NEEDED,
    is_ok := 7, can_send := 0, owner := none, clicap_handler := none,
    unloaded := true }

/-- An active entry for "account-tag" owned by module 2. -/
def entryActive : MTagEntry :=
  { name := strBytes "account-tag", flags := MTAG_HANDLER_FLAGS_NO_CAP_NEEDED,
    is_ok := 7, can_send := 0, owner := some 2, clicap_handler := none,
    unloaded := false }

/-- An active entry bound to capability 5, owned by module 3. -/
def entryWithCap : MTagEntry :=
  { name := strBytes "typing", flags := 0, is_ok := 9, can_send := 0,
    owner := some 3, clicap_handler := some 5, unloaded := false }

/-- Registry holding only the unloaded "account-tag" entry, mid-rehash. -/
def stRevive : MTagState :=
  { heap := [(0, entryUnloaded)], order := [0], nextId := 1, caps := [],
    modErr := [], modObjs := [], rehashing := true }

/-- Registry holding an active "account-tag" entry, outside a rehash. -/
def stActive : MTagState :=
  { heap := [(0, entryActive)], order := [0], nextId := 1, caps := [],
    modErr := [(2, 0)], modObjs := [(2, [0])], rehashing := false }

/-- Registry holding the capability-bound entry, outside a rehash. -/
def stCapLive : MTagState :=
  { heap := [(0, entryWithCap)], order := [0], nextId := 1,
    caps := [(5, some 0)], modErr := [], modObjs := [(3, [0])],
    rehashing := false }

/-- Registry holding the capability-bound entry, during a rehash. -/
def stCapRehash : MTagState :=
  { heap := [(0, entryWithCap)], order := [0], nextId := 1,
    caps := [(5, some 0)], modErr := [], modObjs := [(3, [0])],
    rehashing := true }

/-- Sample ban entry "ban1" set by "op". -/
def banA : BanEntry := { banstr := some [98, 97, 110, 49], who := some [111, 112], seton := 1111 }

/-- Sample ban entry "ban2" set by "op". -/
def banB : BanEntry := { banstr := some [98, 97, 110, 50], who := some [111, 112], seton := 2222 }

/-- Sample channel record "#c" with two bans. -/
def recSample : ChannelRecord :=
  { chname := some [35, 99], creationtime := 1000, topic := some [116],
    topic_nick := none, topic_time := 2000, modes1 := some [43, 80],
    modes2 := some [], mode_lock := some [], banlist := [banA, banB],
    exlist := [], invexlist := [] }

/-- Sample persistent (`+P`) channel. -/
def chSample : Channel := { persistent := true, crec := recSample }

/-- Sample non-persistent channel (skipped by the writer). -/
def chSkip : Channel := { persistent := false, crec := recSample }

/-- Sample channel list: one skipped channel, one persistent channel. -/
def chsSample : List Channel := [chSkip, chSample]

/-- Environment in which the first `W_SAFE` write (operation 1) fails and
every other file operation would succeed. -/
def envFail1 : Nat → Bool := fun k => k != 1

/-- Truncated database file: valid version word, record count 1, then only
two bytes of the first record's start magic. -/
def truncatedDb : Bytes :=
  encUInt 4 CHANNELDB_VERSION ++ encUInt 8 1 ++ [17, 17]

/-! ## Association-list lemmas -/

theorem alookup_aset_self {α : Type} (l : List (Nat × α)) (k : Nat) (v : α) :
    alookup (aset l k v) k = some v := by
  induction l with
  | nil => simp [aset, alookup]
  | cons p t ih =>
    by_cases h : p.1 = k <;> simp [aset, alookup, h, ih]

theorem alookup_aset_ne {α : Type} (l : List (Nat × α)) (k j : Nat) (v : α)
    (h : j ≠ k) : alookup (aset l k v) j = alookup l j := by
  induction l with
  | nil =>
    have hne : ¬ k = j := fun hkj => h hkj.symm
    simp [aset, alookup, hne]
  | cons p t ih =>
    by_cases hp : p.1 = k
    · subst hp
      have hne : ¬ p.1 = j := fun hj => h hj.symm
      simp [aset, alookup, hne]
    · simp [aset, alookup, hp, ih]

theorem alookup_aupdate_self {α : Type} (l : List (Nat × α)) (k : Nat)
    (f : α → α) : alookup (aupdate l k f) k = (alookup l k).map f := by
  induction l with
  | nil => simp [aupdate, alookup]
  | cons p t ih =>
    by_cases h : p.1 = k <;> simp [aupdate, alookup, h, ih]

theorem alookup_aupdate_ne {α : Type} (l : List (Nat × α)) (k j : Nat)
    (f : α → α) (h : j ≠ k) :
    alookup (aupdate l k f) j = alookup l j := by
  induction l with
  | nil => simp [aupdate, alookup]
  | cons p t ih =>
    by_cases hp : p.1 = k
    · subst hp
      have : ¬ p.1 = j := fun hj => h (hj ▸ rfl)
      simp [aupdate, alookup, this]
    · simp [aupdate, alookup, hp, ih]

theorem alookup_aerase_self {α : Type} (l : List (Nat × α)) (k : Nat) :
    alookup (aerase l k) k = none := by
  induction l with
  | nil => simp [aerase, alookup]
  | cons p t ih =>
    by_cases h : p.1 = k <;> simp [aerase, alookup, h, ih]

theorem alookup_aerase_ne {α : Type} (l : List (Nat × α)) (k j : Nat)
    (h : j ≠ k) : alookup (aerase l k) j = alookup l j := by
  induction l with
  | nil => simp [aerase, alookup]
  | cons p t ih =>
    by_cases hp : p.1 = k
    · subst hp
      have : ¬ p.1 = j := fun hj => h (hj ▸ rfl)
      simp [aerase, alookup, this, ih]
    · simp [aerase, alookup, hp, ih]

/-! ## Claim C1 -/

/-- C1: the claim states that reviving an unloaded entry returns the same
entry with the flag cleared and pointers rebound, and that afterwards the
entry appears in the handler list exactly once.  The code refutes the last
part: `AddListItem(m, mtaghandlers)` (api-mtag.c line 104) also runs on the
revive path, so the already-linked node is linked a second time — starting
from a registry whose list holds the unloaded "account-tag" entry once,
`MessageTagHandlerAdd` returns that entry revived but leaves it in the list
twice (on the real doubly-linked list this corrupts `prev`/`next` into a
cycle). -/
theorem mtag_revive_relinks_entry_twice :
    (MessageTagHandlerAdd none mtagReqNoCap stRevive).1 = AddResult.ok 0 ∧
    alookup (MessageTagHandlerAdd none mtagReqNoCap stRevive).2.heap 0 =
      some { entryUnloaded with unloaded := false } ∧
    stRevive.order.count 0 = 1 ∧
    (MessageTagHandlerAdd none mtagReqNoCap stRevive).2.order.count 0 = 2 := by
  decide

/-! ## Claim C3 -/

/-- C3: when an active (not-unloaded) entry with the requested name exists,
`MessageTagHandlerAdd` with a valid (non-contradictory) request returns NULL,
records `MODERR_EXISTS` on the calling module when one is given, and leaves
the heap, the handler list, the capability back-references and the module
object lists untouched; with no module it leaves the whole state untouched. -/
theorem mtag_add_active_name_fails_exists :
    ∀ (s : MTagState) (md : Option Nat) (mreq : MessageTagHandlerInfo)
      (i : Nat) (e : MTagEntry),
    ((mreq.flags &&& MTAG_HANDLER_FLAGS_NO_CAP_NEEDED != 0)
        && mreq.clicap_handler.isSome) = false →
    ((mreq.flags &&& MTAG_HANDLER_FLAGS_NO_CAP_NEEDED == 0)
        && mreq.clicap_handler.isNone) = false →
    findEntry s mreq.name = some (i, e) →
    e.unloaded = false →
    (MessageTagHandlerAdd md mreq s).1 = AddResult.nullResult ∧
    (MessageTagHandlerAdd md mreq s).2.heap = s.heap ∧
    (MessageTagHandlerAdd md mreq s).2.order = s.order ∧
    (MessageTagHandlerAdd md mreq s).2.caps = s.caps ∧
    (MessageTagHandlerAdd md mreq s).2.modObjs = s.modObjs ∧
    (∀ m, md = some m →
      alookup (MessageTagHandlerAdd md mreq s).2.modErr m = some MODERR_EXISTS) ∧
    (md = none → (MessageTagHandlerAdd md mreq s).2 = s) := by
  intro s md mreq i e h1 h2 hfind hun
  cases md with
  | none =>
    simp [MessageTagHandlerAdd, h1, h2, hfind, hun]
  | some m =>
    simp [MessageTagHandlerAdd, h1, h2, hfind, hun, alookup_aset_self]

/-- Witness for C3 at a concrete registry: the active "account-tag" entry
makes a second registration fail with `MODERR_EXISTS` and no registry
change. -/
theorem mtag_add_active_name_fails_exists_witness :
    (MessageTagHandlerAdd (some 2) mtagReqNoCap stActive).1 = AddResult.nullResult ∧
    (MessageTagHandlerAdd (some 2) mtagReqNoCap stActive).2.heap = stActive.heap ∧
    (MessageTagHandlerAdd (some 2) mtagReqNoCap stActive).2.order = stActive.order ∧
    (MessageTagHandlerAdd (some 2) mtagReqNoCap stActive).2.caps = stActive.caps ∧
    (MessageTagHandlerAdd (some 2) mtagReqNoCap stActive).2.modObjs = stActive.modObjs ∧
    (∀ m, (some 2 : Option Nat) = some m →
      alookup (MessageTagHandlerAdd (some 2) mtagReqNoCap stActive).2.modErr m =
        some MODERR_EXISTS) ∧
    ((some 2 : Option Nat) = none →
      (MessageTagHandlerAdd (some 2) mtagReqNoCap stActive).2 = stActive) :=
  mtag_add_active_name_fails_exists stActive (some 2) mtagReqNoCap 0 entryActive
    (by decide) (by decide) (by decide) (by decide)

/-! ## Claim C4 -/

/-- C4: a registration request that either claims no capability is needed
while also supplying a `clicap_handler`, or neither sets the flag nor
supplies a handler, makes `MessageTagHandlerAdd` log at error severity and
abort before touching any state. -/
theorem mtag_add_contradictory_request_aborts :
    ∀ (s : MTagState) (md : Option Nat) (mreq : MessageTagHandlerInfo),
    ((mreq.flags &&& MTAG_HANDLER_FLAGS_NO_CAP_NEEDED != 0)
        && mreq.clicap_handler.isSome) = true ∨
    ((mreq.flags &&& MTAG_HANDLER_FLAGS_NO_CAP_NEEDED == 0)
        && mreq.clicap_handler.isNone) = true →
    MessageTagHandlerAdd md mreq s = (AddResult.aborted Severity.error, s) := by
  intro s md mreq h
  rcases h with h | h
  · simp [MessageTagHandlerAdd, h]
  · have h1 : (mreq.flags &&& MTAG_HANDLER_FLAGS_NO_CAP_NEEDED == 0) = true ∧
        mreq.clicap_handler.isNone = true := by
      exact Bool.and_eq_true_iff.mp h
    have h2 : ((mreq.flags &&& MTAG_HANDLER_FLAGS_NO_CAP_NEEDED != 0)
        && mreq.clicap_handler.isSome) = false := by
      rcases h1 with ⟨ha, hb⟩
      simp only [bne, ha, Bool.not_true, Bool.false_and]
    simp [MessageTagHandlerAdd, h2, h]

/-- Witness for C4: the concrete contradictory request (flag set and a
capability handler supplied) aborts on the sample registry. -/
theorem mtag_add_contradictory_request_aborts_witness :
    MessageTagHandlerAdd (some 2) mtagReqBad stActive =
      (AddResult.aborted Severity.error, stActive) :=
  mtag_add_contradictory_request_aborts stActive (some 2) mtagReqBad
    (Or.inl (by decide))

/-! ## Claim C5 -/

theorem mtagAddFinish_ok_and_caps (md : Option Nat) (mreq : MessageTagHandlerInfo)
    (i : Nat) (s : MTagState) (c : Nat) (hc : mreq.clicap_handler = some c) :
    (mtagAddFinish md mreq i s).1 = AddResult.ok i ∧
    alookup (mtagAddFinish md mreq i s).2.caps c = some (some i) := by
  cases md <;> simp [mtagAddFinish, hc, alookup_aset_self]

/-- C5: the reverse-dependency discipline between a handler and its
capability.  First, when `unload_mtag_handler_commit` physically destroys a
handler that has a `clicap_handler`, the destroyed state shows the
capability's `mtag_handler` back-reference already NULLed and the handler
gone from the heap.  Second, a successful `MessageTagHandlerAdd` that binds
a `clicap_handler` leaves that capability's back-reference pointing at the
returned handler. -/
theorem mtag_cap_backref_discipline :
    (∀ (s : MTagState) (i c : Nat) (e : MTagEntry),
      alookup s.heap i = some e → e.clicap_handler = some c →
      alookup (unload_mtag_handler_commit i s).caps c = some none ∧
      alookup (unload_mtag_handler_commit i s).heap i = none) ∧
    (∀ (s s2 : MTagState) (md : Option Nat) (mreq : MessageTagHandlerInfo)
        (j c : Nat),
      MessageTagHandlerAdd md mreq s = (AddResult.ok j, s2) →
      mreq.clicap_handler = some c →
      alookup s2.caps c = some (some j)) := by
  constructor
  · intro s i c e he hc
    simp [unload_mtag_handler_commit, he, hc, alookup_aset_self,
      alookup_aerase_self]
  · intro s s2 md mreq j c hadd hc
    unfold MessageTagHandlerAdd at hadd
    split at hadd
    · simp at hadd
    · split at hadd
      · simp at hadd
      · split at hadd
        · rename_i i e _
          split at hadd
          · have h := mtagAddFinish_ok_and_caps md mreq i
              { s with heap := aupdate s.heap i (fun e0 => { e0 with unloaded := false }) }
              c hc
            rw [hadd] at h
            simp at h
            rw [h.1]
            exact h.2
          · split at hadd <;> simp at hadd
        · have h := mtagAddFinish_ok_and_caps md mreq s.nextId
            { s with heap := aset s.heap s.nextId (freshEntry mreq.name),
                     nextId := s.nextId + 1 } c hc
          rw [hadd] at h
          simp at h
          rw [h.1]
          exact h.2

/-- Witness for C5: committing the capability-bound entry of the sample
registry clears capability 5's back-reference and frees the entry; adding
`mtagReqWithCap` to the empty registry binds capability 6 to the new
handler 0. -/
theorem mtag_cap_backref_discipline_witness :
    (alookup (unload_mtag_handler_commit 0 stCapLive).caps 5 = some none ∧
      alookup (unload_mtag_handler_commit 0 stCapLive).heap 0 = none) ∧
    alookup (MessageTagHandlerAdd (some 3) mtagReqWithCap
      { heap := [], order := [], nextId := 0, caps := [], modErr := [],
        modObjs := [], rehashing := false }).2.caps 6 = some (some 0) := by
  constructor
  · exact mtag_cap_backref_discipline.1 stCapLive 0 5 entryWithCap
      (by decide) (by decide)
  · exact mtag_cap_backref_discipline.2
      { heap := [], order := [], nextId := 0, caps := [], modErr := [],
        modObjs := [], rehashing := false }
      (MessageTagHandlerAdd (some 3) mtagReqWithCap
        { heap := [], order := [], nextId := 0, caps := [], modErr := [],
          modObjs := [], rehashing := false }).2
      (some 3) mtagReqWithCap 0 6 (by decide) (by decide)

/-! ## Claim C2 -/

theorem mem_aKeys_of_alookup {α : Type} (l : List (Nat × α)) (j : Nat)
    (h : (alookup l j).isSome = true) : j ∈ aKeys l := by
  induction l with
  | nil => simp [alookup] at h
  | cons p t ih =>
    by_cases hp : p.1 = j
    · simp [aKeys, hp]
    · simp only [alookup, hp, if_false] at h
      simp [aKeys] at ih ⊢
      exact Or.inr (ih h)

theorem commit_heap_self (i : Nat) (s : MTagState) :
    alookup (unload_mtag_handler_commit i s).heap i = none := by
  unfold unload_mtag_handler_commit
  cases hl : alookup s.heap i with
  | none => simp [hl]
  | some e => cases hcc : e.clicap_handler <;> simp [alookup_aerase_self]

theorem commit_heap_ne (i j : Nat) (s : MTagState) (h : j ≠ i) :
    alookup (unload_mtag_handler_commit i s).heap j = alookup s.heap j := by
  unfold unload_mtag_handler_commit
  cases hl : alookup s.heap i with
  | none => rfl
  | some e =>
    cases hcc : e.clicap_handler <;>
      simp [hcc, alookup_aerase_ne _ _ _ h]

theorem isUnloadedB_commit_ne (i j : Nat) (s : MTagState) (h : j ≠ i) :
    isUnloadedB (unload_mtag_handler_commit i s) j = isUnloadedB s j := by
  simp [isUnloadedB, commit_heap_ne i j s h]

theorem sweepList_lookup (l : List Nat) (s : MTagState) (j : Nat)
    (hnd : l.Nodup) :
    alookup (sweepList l s).heap j =
      if j ∈ l ∧ isUnloadedB s j = true then none else alookup s.heap j := by
  induction l generalizing s with
  | nil => simp [sweepList]
  | cons i rest ih =>
    have hi : i ∉ rest := (List.nodup_cons.mp hnd).1
    have hndr : rest.Nodup := (List.nodup_cons.mp hnd).2
    simp only [sweepList]
    split
    · rename_i e heq
      split
      · rename_i hu
        rw [ih _ hndr]
        by_cases hji : j = i
        · subst hji
          simp [hi, commit_heap_self, isUnloadedB, heq, hu]
        · simp only [isUnloadedB_commit_ne i j s hji,
            commit_heap_ne i j s hji, List.mem_cons, hji, false_or]
      · rename_i hu
        rw [ih _ hndr]
        by_cases hji : j = i
        · subst hji
          simp [hi, isUnloadedB, heq, Bool.not_eq_true] at hu ⊢
          simp [hu]
        · simp [List.mem_cons, hji]
    · rename_i heq
      rw [ih _ hndr]
      by_cases hji : j = i
      · subst hji
        simp [hi, isUnloadedB, heq]
      · simp [List.mem_cons, hji]

theorem commit_order_eq (i : Nat) (s : MTagState) (e : MTagEntry)
    (he : alookup s.heap i = some e) :
    (unload_mtag_handler_commit i s).order = s.order.erase i := by
  unfold unload_mtag_handler_commit
  rw [he]
  cases hcc : e.clicap_handler <;> simp [hcc]

theorem commit_caps_cleared (i c : Nat) (s : MTagState) (e : MTagEntry)
    (he : alookup s.heap i = some e) (hc : e.clicap_handler = some c) :
    alookup (unload_mtag_handler_commit i s).caps c = some none := by
  simp only [unload_mtag_handler_commit, he, hc]
  simp [alookup_aset_self]

/-- C2: the two-phase delete protocol.  During a rehash,
`MessageTagHandlerDel` only marks the entry `unloaded` (the entry stays
allocated, with its owner field cleared by the module-object cleanup, and
stays linked in `mtaghandlers`).  Outside a rehash it destroys the entry
immediately: it is unlinked, freed, and its capability back-reference is
NULLed.  The commit sweep `unload_all_unused_mtag_handlers` frees an entry
if and only if that entry is marked `unloaded` when the sweep runs. -/
theorem mtag_del_two_phase :
    ∀ (s : MTagState) (i : Nat) (e : MTagEntry),
    MTagWF s → alookup s.heap i = some e →
    (s.rehashing = true →
      alookup (MessageTagHandlerDel i s).heap i =
        some { e with unloaded := true, owner := none } ∧
      (MessageTagHandlerDel i s).order = s.order) ∧
    (s.rehashing = false →
      alookup (MessageTagHandlerDel i s).heap i = none ∧
      (MessageTagHandlerDel i s).order = s.order.erase i ∧
      (∀ c, e.clicap_handler = some c →
        alookup (MessageTagHandlerDel i s).caps c = some none)) ∧
    (∀ j ej, alookup s.heap j = some ej →
      (alookup (unload_all_unused_mtag_handlers s).heap j = none ↔
        ej.unloaded = true)) := by
  intro s i e hwf he
  refine ⟨?_, ?_, ?_⟩
  · intro hreh
    simp only [MessageTagHandlerDel, he, hreh, if_true]
    cases howner : e.owner with
    | none =>
      constructor
      · rw [alookup_aupdate_self, he]
        obtain ⟨nm, fl, io, cs, ow, cl, ul⟩ := e
        simp at howner
        simp [howner]
      · rfl
    | some md =>
      constructor
      · simp [alookup_aupdate_self, he]
      · rfl
  · intro hreh
    simp only [MessageTagHandlerDel, he, hreh, Bool.false_eq_true, if_false]
    cases howner : e.owner with
    | none =>
      refine ⟨commit_heap_self i s, commit_order_eq i s e he, ?_⟩
      intro c hc
      exact commit_caps_cleared i c s e he hc
    | some md =>
      refine ⟨?_, ?_, ?_⟩
      · simp only [alookup_aupdate_self]
        rw [show alookup (unload_mtag_handler_commit i s).heap i = none from
          commit_heap_self i s]
        rfl
      · exact commit_order_eq i s e he
      · intro c hc
        simp only []
        exact commit_caps_cleared i c s e he hc
  · intro j ej hj
    have hjmem : j ∈ s.order := by
      refine hwf.2.2 j (mem_aKeys_of_alookup _ _ ?_)
      rw [hj]
      rfl
    rw [show unload_all_unused_mtag_handlers s = sweepList s.order s from rfl,
      sweepList_lookup _ _ _ hwf.1]
    cases hu : ej.unloaded with
    | true => simp [isUnloadedB, hj, hu, hjmem]
    | false => simp [isUnloadedB, hj, hu, hjmem]

/-- Witness for C2 at the concrete capability-bound registry (not
rehashing): the entry is destroyed immediately, unlinked, and capability
5's back-reference is cleared; the sweep frees an entry exactly when it is
marked unloaded. -/
theorem mtag_del_two_phase_witness :
    (stCapLive.rehashing = true →
      alookup (MessageTagHandlerDel 0 stCapLive).heap 0 =
        some { entryWithCap with unloaded := true, owner := none } ∧
      (MessageTagHandlerDel 0 stCapLive).order = stCapLive.order) ∧
    (stCapLive.rehashing = false →
      alookup (MessageTagHandlerDel 0 stCapLive).heap 0 = none ∧
      (MessageTagHandlerDel 0 stCapLive).order = stCapLive.order.erase 0 ∧
      (∀ c, entryWithCap.clicap_handler = some c →
        alookup (MessageTagHandlerDel 0 stCapLive).caps c = some none)) ∧
    (∀ j ej, alookup stCapLive.heap j = some ej →
      (alookup (unload_all_unused_mtag_handlers stCapLive).heap j = none ↔
        ej.unloaded = true)) :=
  mtag_del_two_phase stCapLive 0 entryWithCap
    (by unfold MTagWF; decide) (by decide)

/-! ## Byte-codec lemmas -/

theorem length_encUInt (w n : Nat) : (encUInt w n).length = w := by
  induction w generalizing n with
  | zero => rfl
  | succ w ih => simp [encUInt, ih]

theorem readBytes_append (xs r : Bytes) :
    readBytes xs.length (xs ++ r) = some (xs, r) := by
  induction xs with
  | nil => rfl
  | cons b t ih => simp [readBytes, ih]

theorem readBytes_short (k : Nat) (bs : Bytes) (h : bs.length < k) :
    readBytes k bs = none := by
  induction k generalizing bs with
  | zero => omega
  | succ k ih =>
    cases bs with
    | nil => rfl
    | cons b t =>
      simp only [List.length_cons] at h
      simp [readBytes, ih t (by omega)]

theorem leVal_encUInt (w n : Nat) (h : n < 256 ^ w) :
    leVal (encUInt w n) = n := by
  induction w generalizing n with
  | zero =>
    simp [Nat.pow_zero] at h
    simp [encUInt, leVal, h]
  | succ w ih =>
    have hdiv : n / 256 < 256 ^ w := by
      rw [Nat.div_lt_iff_lt_mul (by norm_num)]
      calc n < 256 ^ (w + 1) := h
        _ = 256 ^ w * 256 := by rw [Nat.pow_succ]
    simp only [encUInt, leVal, ih (n / 256) hdiv]
    omega

theorem decUInt_enc (w n : Nat) (r : Bytes) (h : n < 256 ^ w) :
    decUInt w (encUInt w n ++ r) = some (n, r) := by
  have hlen := readBytes_append (encUInt w n) r
  rw [length_encUInt] at hlen
  simp [decUInt, hlen, leVal_encUInt w n h]

theorem decStr_encStr (os : Option Bytes) (r : Bytes) (h : strOk os) :
    decStr (encStr os ++ r) = some (os, r) := by
  cases os with
  | none =>
    simp [encStr, decStr, decUInt_enc 2 65535 r (by norm_num)]
  | some s =>
    have hlt : s.length < 65535 := by simpa [strOk] using h
    have hmod : s.length % 65536 = s.length := Nat.mod_eq_of_lt (by omega)
    have hfit : s.length < 256 ^ 2 := by omega
    have hne : ¬ s.length = 65535 := by omega
    simp only [encStr, hmod, List.take_length, decStr, List.append_assoc,
      decUInt_enc 2 s.length (s ++ r) hfit, hne, if_false, readBytes_append]
    rfl

theorem decBans_enc (l : List BanEntry) (r : Bytes) (acc : List BanEntry)
    (h : ∀ e ∈ l, strOk e.banstr ∧ strOk e.who ∧ e.seton < 18446744073709551616) :
    decBans l.length ((l.map encBan).flatten ++ r) acc =
      some (l.reverse ++ acc, r) := by
  induction l generalizing acc with
  | nil => simp [decBans]
  | cons e t ih =>
    have he := h e (List.mem_cons_self e t)
    have ht : ∀ x ∈ t, strOk x.banstr ∧ strOk x.who ∧
        x.seton < 18446744073709551616 :=
      fun x hx => h x (List.mem_cons_of_mem e hx)
    have hs : e.seton < 256 ^ 8 := by simpa using he.2.2
    simp only [List.map_cons, List.flatten_cons, List.length_cons, encBan,
      List.append_assoc, decBans, decStr_encStr, he.1, he.2.1, decUInt_enc,
      hs, ih (e :: acc) ht]
    simp

theorem read_listmode_enc (l : List BanEntry) (r : Bytes) (acc : List BanEntry)
    (h : bansOk l) :
    read_listmode (write_listmode l ++ r) acc = some (l.reverse ++ acc, r) := by
  obtain ⟨hlen, hall⟩ := h
  simp only [write_listmode, List.append_assoc, read_listmode]
  rw [decUInt_enc 4 l.length _ (by norm_num; omega)]
  exact decBans_enc l r acc hall

theorem parseRecord_enc (x : ChannelRecord) (rest : Bytes) (h : recOk x) :
    parseRecord (write_channel_entry x ++ rest) =
      RecParse.done (revRec x) MAGIC_CHANNEL_END rest := by
  obtain ⟨h1, h2, h3, h4, h5, h6, h7, h8, hb, hx, hi⟩ := h
  have hct : x.creationtime < 256 ^ 8 := by simpa using h7
  have htt : x.topic_time < 256 ^ 8 := by simpa using h8
  have hms : MAGIC_CHANNEL_START < 256 ^ 4 := by norm_num [MAGIC_CHANNEL_START]
  have hme : MAGIC_CHANNEL_END < 256 ^ 4 := by norm_num [MAGIC_CHANNEL_END]
  simp only [write_channel_entry, List.append_assoc, parseRecord,
    decUInt_enc, hms, hme, decStr_encStr, h1, h2, h3, h4, h5, h6, hct, htt,
    ne_eq, not_true_eq_false, if_false, parseRecordLists, read_listmode_enc,
    hb, hx, hi]
  simp [revRec]

theorem readRecords_zero (bs : Bytes) (acc : List ChannelRecord) (added : Nat) :
    readRecords 0 bs acc added =
      { ret := 1, recs := acc.reverse, reported := mkReport added } := rfl

theorem readRecords_done (k : Nat) (bs : Bytes) (acc : List ChannelRecord)
    (added : Nat) (r : ChannelRecord) (em : Nat) (rest : Bytes)
    (h : parseRecord bs = RecParse.done r em rest) :
    readRecords (k + 1) bs acc added =
      if em ≠ MAGIC_CHANNEL_END then
        { ret := 1, recs := (r :: acc).reverse, reported := mkReport (added + 1) }
      else readRecords k rest (r :: acc) (added + 1) := by
  simp only [readRecords, h]

theorem readRecords_badMagic (k : Nat) (bs : Bytes) (acc : List ChannelRecord)
    (added : Nat) (m : Nat) (r2 : Bytes)
    (h : parseRecord bs = RecParse.badMagic m r2) :
    readRecords (k + 1) bs acc added =
      { ret := 1, recs := acc.reverse, reported := mkReport added } := by
  simp only [readRecords, h]

theorem readRecords_shortRead (k : Nat) (bs : Bytes) (acc : List ChannelRecord)
    (added : Nat) (created : Option ChannelRecord)
    (h : parseRecord bs = RecParse.shortRead created) :
    readRecords (k + 1) bs acc added =
      { ret := 0,
        recs := (match created with | some c => c :: acc | none => acc).reverse,
        reported := none } := by
  simp only [readRecords, h]

theorem readRecords_skipValid (ps : List ChannelRecord) (j : Nat)
    (rest : Bytes) (acc : List ChannelRecord) (added : Nat)
    (h : ∀ x ∈ ps, recOk x) :
    readRecords (ps.length + j) ((ps.map write_channel_entry).flatten ++ rest)
        acc added =
      readRecords j rest ((ps.map revRec).reverse ++ acc) (added + ps.length) := by
  induction ps generalizing acc added with
  | nil => simp
  | cons x t ih =>
    have hx := h x (List.mem_cons_self x t)
    have ht : ∀ y ∈ t, recOk y := fun y hy => h y (List.mem_cons_of_mem x hy)
    have hbytes : ((x :: t).map write_channel_entry).flatten ++ rest
        = write_channel_entry x ++ ((t.map write_channel_entry).flatten ++ rest) := by
      simp
    have hcount : (x :: t).length + j = (t.length + j) + 1 := by
      simp only [List.length_cons]
      omega
    rw [hcount, hbytes,
      readRecords_done _ _ _ _ _ _ _ (parseRecord_enc x _ hx),
      if_neg (by simp), ih (revRec x :: acc) (added + 1) ht]
    congr 1
    · simp
    · simp only [List.length_cons]
      omega

theorem readRecords_exact (ps : List ChannelRecord) (acc : List ChannelRecord)
    (added : Nat) (h : ∀ x ∈ ps, recOk x) :
    readRecords ps.length ((ps.map write_channel_entry)).flatten acc added =
      { ret := 1, recs := acc.reverse ++ ps.map revRec,
        reported := mkReport (added + ps.length) } := by
  have hsv := readRecords_skipValid ps 0 [] acc added h
  simp only [List.append_nil, Nat.add_zero] at hsv
  rw [hsv, readRecords_zero]
  simp

/-! ## Claim C7 -/

set_option maxHeartbeats 2000000 in
/-- C7 (counterexample to the claim as stated): writing the sample channel
list (one `+P` channel whose ban list is `[banA, banB]`) and reading it back
does not reproduce the record exactly — `read_listmode` prepends entries, so
the ban list comes back reversed. -/
theorem channeldb_roundtrip_not_exact :
    (read_channeldb (OpenResult.ok (write_channeldb_bytes chsSample))).recs ≠
      [recSample] := by decide

/-- C7 (amended): a database written by `write_channeldb` and read back by
`read_channeldb` succeeds and reproduces every `+P` channel record's scalar
and string fields exactly, and every list mode's entries exactly as a set
but in reversed order; this includes the empty-list and zero-record cases
(`mkReport 0 = none`: no "Added" notice when nothing was recovered). -/
theorem readBody_header (version count : Nat) (body : Bytes)
    (hv : version < 256 ^ 4) (hc : count < 256 ^ 8) :
    readBody (encUInt 4 version ++ (encUInt 8 count ++ body)) =
      if version > CHANNELDB_VERSION then
        { ret := 0, recs := [], reported := none }
      else readRecords count body [] 0 := by
  simp only [readBody, decUInt_enc 4 version _ hv, decUInt_enc 8 count _ hc]

theorem channeldb_roundtrip_reverses_lists :
    ∀ (chs : List Channel),
    (∀ c ∈ chs, recOk c.crec) →
    (chs.filter (fun c => c.persistent)).length < 2147483648 →
    read_channeldb (OpenResult.ok (write_channeldb_bytes chs)) =
      { ret := 1,
        recs := (chs.filter (fun c => c.persistent)).map (fun c => revRec c.crec),
        reported := mkReport (chs.filter (fun c => c.persistent)).length } := by
  intro chs h hlen
  have hall : ∀ x ∈ (chs.filter (fun c => c.persistent)).map (fun c => c.crec),
      recOk x := by
    intro x hx
    obtain ⟨c, hc, rfl⟩ := List.mem_map.mp hx
    exact h c (List.mem_filter.mp hc).1
  have hn : ((chs.filter (fun c => c.persistent)).map (fun c => c.crec)).length
      = (chs.filter (fun c => c.persistent)).length := List.length_map _ _
  have hfit : (chs.filter (fun c => c.persistent)).length < 256 ^ 8 := by
    have hp : (256 : Nat) ^ 8 = 18446744073709551616 := by norm_num
    omega
  have hmap : (chs.filter (fun c => c.persistent)).map
        (fun c => write_channel_entry c.crec)
      = ((chs.filter (fun c => c.persistent)).map (fun c => c.crec)).map
          write_channel_entry := by
    rw [List.map_map]
    rfl
  have hbytes : write_channeldb_bytes chs
      = encUInt 4 CHANNELDB_VERSION ++
        (encUInt 8 (chs.filter (fun c => c.persistent)).length ++
          (((chs.filter (fun c => c.persistent)).map (fun c => c.crec)).map
            write_channel_entry).flatten) := by
    rw [write_channeldb_bytes, ← hmap, List.append_assoc]
  have hrb : read_channeldb (OpenResult.ok (write_channeldb_bytes chs))
      = readBody (write_channeldb_bytes chs) := rfl
  rw [hrb, hbytes, readBody_header _ _ _ (by norm_num [CHANNELDB_VERSION]) hfit,
    if_neg (by norm_num), ← hn, readRecords_exact _ _ _ hall]
  simp only [List.reverse_nil, List.nil_append, Nat.zero_add, List.map_map, hn]
  rfl

/-- Witness for the amended C7 at the sample channel list (one skipped
non-`+P` channel, one `+P` channel with two bans): reading the written
database back succeeds with the ban list reversed. -/
theorem channeldb_roundtrip_reverses_lists_witness :
    read_channeldb (OpenResult.ok (write_channeldb_bytes chsSample)) =
      { ret := 1,
        recs := (chsSample.filter (fun c => c.persistent)).map
          (fun c => revRec c.crec),
        reported := mkReport (chsSample.filter (fun c => c.persistent)).length } :=
  channeldb_roundtrip_reverses_lists chsSample
    (by
      simp only [recOk, bansOk, strOk, chsSample]
      decide)
    (by decide)

/-! ## Claim C8 -/

/-- C8 (counterexample to the claim as stated): on a database file truncated
inside the first record (only two bytes of the start magic remain), the
reader stops and survives, but it returns 0 and emits no "Added" notice at
all — the number of channels recovered is not reported, contrary to the
claim (`R_SAFE` returns before the report at channeldb.c line 465). -/
theorem channeldb_truncation_not_reported :
    (read_channeldb (OpenResult.ok truncatedDb)).ret = 0 ∧
    (read_channeldb (OpenResult.ok truncatedDb)).recs = [] ∧
    (read_channeldb (OpenResult.ok truncatedDb)).reported = none := by
  decide

/-- C8 (amended): for a database holding valid records followed by
corruption, with a record count larger than the number of intact records,
the reader never reads past the corruption point and keeps every fully-read
record, and: (a) on a wrong start magic word it breaks out, reports the
recovered count if non-zero, and returns 1; (b) on a short read inside a
record it returns 0 immediately, keeping a partially populated channel when
the failure hit the list modes, and reports nothing; (c) on a wrong end
magic word it counts the (fully read) record, breaks out, reports, and
returns 1. -/
theorem channeldb_corruption_stops_cleanly :
    ∀ (ps : List ChannelRecord) (k : Nat) (rest : Bytes),
    (∀ x ∈ ps, recOk x) →
    ps.length + k + 1 < 18446744073709551616 →
    (∀ m r2, decUInt 4 rest = some (m, r2) → m ≠ MAGIC_CHANNEL_START →
      read_channeldb (OpenResult.ok (encUInt 4 CHANNELDB_VERSION ++
          (encUInt 8 (ps.length + k + 1) ++
            ((ps.map write_channel_entry).flatten ++ rest)))) =
        { ret := 1, recs := ps.map revRec, reported := mkReport ps.length }) ∧
    (∀ created, parseRecord rest = RecParse.shortRead created →
      read_channeldb (OpenResult.ok (encUInt 4 CHANNELDB_VERSION ++
          (encUInt 8 (ps.length + k + 1) ++
            ((ps.map write_channel_entry).flatten ++ rest)))) =
        { ret := 0, recs := ps.map revRec ++ created.toList, reported := none }) ∧
    (∀ x em r2, parseRecord rest = RecParse.done x em r2 →
      em ≠ MAGIC_CHANNEL_END →
      read_channeldb (OpenResult.ok (encUInt 4 CHANNELDB_VERSION ++
          (encUInt 8 (ps.length + k + 1) ++
            ((ps.map write_channel_entry).flatten ++ rest)))) =
        { ret := 1, recs := ps.map revRec ++ [x],
          reported := some (ps.length + 1) }) := by
  intro ps k rest h hcount
  have hfit : ps.length + k + 1 < 256 ^ 8 := by
    have hp : (256 : Nat) ^ 8 = 18446744073709551616 := by norm_num
    omega
  have hbase : read_channeldb (OpenResult.ok (encUInt 4 CHANNELDB_VERSION ++
        (encUInt 8 (ps.length + k + 1) ++
          ((ps.map write_channel_entry).flatten ++ rest)))) =
      readRecords (k + 1) rest ((ps.map revRec).reverse) ps.length := by
    have hrb : read_channeldb (OpenResult.ok (encUInt 4 CHANNELDB_VERSION ++
          (encUInt 8 (ps.length + k + 1) ++
            ((ps.map write_channel_entry).flatten ++ rest)))) =
        readBody (encUInt 4 CHANNELDB_VERSION ++
          (encUInt 8 (ps.length + k + 1) ++
            ((ps.map write_channel_entry).flatten ++ rest))) := rfl
    rw [hrb, readBody_header _ _ _ (by norm_num [CHANNELDB_VERSION]) hfit,
      if_neg (by norm_num), Nat.add_assoc,
      readRecords_skipValid ps (k + 1) rest [] 0 h]
    simp
  refine ⟨?_, ?_, ?_⟩
  · intro m r2 hm hne
    have hpm : parseRecord rest = RecParse.badMagic m r2 := by
      simp only [parseRecord, hm]
      rw [if_pos hne]
    rw [hbase, readRecords_badMagic _ _ _ _ _ _ hpm]
    simp
  · intro created hc
    rw [hbase, readRecords_shortRead _ _ _ _ _ hc]
    cases created <;> simp
  · intro x em r2 hd hne
    rw [hbase, readRecords_done _ _ _ _ _ _ _ hd, if_pos hne]
    simp [mkReport]

/-- Witness for the amended C8: one intact sample record, a record count of
2, and then four bytes that decode to 153 instead of the start magic — the
reader returns 1, keeps the intact (list-reversed) record and reports one
recovered channel. -/
theorem channeldb_corruption_stops_cleanly_witness :
    read_channeldb (OpenResult.ok (encUInt 4 CHANNELDB_VERSION ++
        (encUInt 8 (([recSample] : List ChannelRecord).length + 0 + 1) ++
          ((([recSample] : List ChannelRecord).map write_channel_entry).flatten ++
            [153, 0, 0, 0])))) =
      { ret := 1, recs := ([recSample] : List ChannelRecord).map revRec,
        reported := mkReport ([recSample] : List ChannelRecord).length } :=
  (channeldb_corruption_stops_cleanly [recSample] 0 [153, 0, 0, 0]
      (by
        simp only [recOk, bansOk, strOk]
        decide)
      (by decide)).1
    153 [] (by decide) (by decide)

/-! ## Claim C6 -/

theorem flatten_map_flatten {α : Type} (f : α → List Bytes) (g : α → Bytes)
    (hfg : ∀ a, (f a).flatten = g a) (l : List α) :
    ((l.map f).flatten).flatten = (l.map g).flatten := by
  induction l with
  | nil => simp
  | cons a t ih => simp [List.flatten_append, hfg a, ih]

theorem listmodeChunks_flatten (l : List BanEntry) :
    (listmodeChunks l).flatten = write_listmode l := by
  simp only [listmodeChunks, write_listmode, List.flatten_cons]
  congr 1
  exact flatten_map_flatten
    (fun e => [encStr e.banstr, encStr e.who, encUInt 8 e.seton]) encBan
    (fun e => by simp [encBan]) l

theorem entryChunks_flatten (r : ChannelRecord) :
    (entryChunks r).flatten = write_channel_entry r := by
  simp [entryChunks, write_channel_entry, List.flatten_append,
    listmodeChunks_flatten, List.append_assoc]

theorem channeldbChunks_flatten (chs : List Channel) :
    (channeldbChunks chs).flatten = write_channeldb_bytes chs := by
  simp only [channeldbChunks, write_channeldb_bytes, List.flatten_cons]
  rw [flatten_map_flatten (fun c => entryChunks c.crec)
    (fun c => write_channel_entry c.crec)
    (fun c => entryChunks_flatten c.crec) (chs.filter (fun c => c.persistent))]
  simp [List.append_assoc]

/-- C6: `write_channeldb` writes everything to the `.tmp` path (the chunk
sequence flattens to exactly the database image) and the `rename` over the
real database is attempted only when the open, every single write, and the
close all succeeded; when the open, any write, or the close fails it
returns 0 without attempting the rename, leaving the previous database file
untouched. -/
theorem write_channeldb_atomic :
    ∀ (env : Nat → Bool) (db : String) (chs : List Channel),
    (write_channeldb env db chs).tmpPath = db ++ ".tmp" ∧
    ((write_channeldb env db chs).renameAttempted = true →
      env 0 = true ∧ writesOk env 1 (channeldbChunks chs) = true ∧
      env (1 + (channeldbChunks chs).length) = true) ∧
    ((env 0 = false ∨ writesOk env 1 (channeldbChunks chs) = false ∨
        env (1 + (channeldbChunks chs).length) = false) →
      (write_channeldb env db chs).ret = 0 ∧
      (write_channeldb env db chs).renameAttempted = false) ∧
    ((write_channeldb env db chs).dbReplaced = true →
      (write_channeldb env db chs).ret = 1) ∧
    (channeldbChunks chs).flatten = write_channeldb_bytes chs := by
  intro env db chs
  refine ⟨?_, ?_, ?_, ?_, channeldbChunks_flatten chs⟩ <;>
  · simp only [write_channeldb]
    split_ifs with h0 h1 h2 h3 <;> simp_all

/-- Witness for C6: in the environment where the first `W_SAFE` write
fails, writing the sample channel list returns 0 and never attempts the
rename. -/
theorem write_channeldb_atomic_witness :
    (write_channeldb envFail1 "channel.db" chsSample).ret = 0 ∧
    (write_channeldb envFail1 "channel.db" chsSample).renameAttempted = false :=
  (write_channeldb_atomic envFail1 "channel.db" chsSample).2.2.1
    (Or.inr (Or.inl (by decide)))

/-! ## Claim C9 -/

/-- C9: `read_channeldb` runs only on the first-ever load of the module.
After the initial MOD_INIT/MOD_LOAD sequence from process boot, any number
of rehash cycles (MOD_UNLOAD with `SavePersistentInt`, fresh module statics,
MOD_INIT with `LoadPersistentInt`, MOD_LOAD) leaves the database read count
at exactly one: the restored `channeldb_loaded` flag makes every later
MOD_LOAD skip `read_channeldb`.  The flag value 1 itself survives every
cycle through the persistent-variable bridge. -/
theorem channeldb_reads_db_only_on_first_load :
    ∀ n : Nat,
    (channeldbRehash^[n] (channeldbModLoad (channeldbModInit channeldbBoot))).dbReads = 1 ∧
    (channeldbRehash^[n] (channeldbModLoad (channeldbModInit channeldbBoot))).loadedVar = 1 := by
  intro n
  induction n with
  | zero =>
    simp [Function.iterate_zero, channeldbModLoad, channeldbModInit,
      channeldbBoot]
  | succ n ih =>
    rw [Function.iterate_succ_apply']
    obtain ⟨h1, h2⟩ := ih
    set sn := channeldbRehash^[n] (channeldbModLoad (channeldbModInit channeldbBoot))
      with hsn
    simp [channeldbRehash, channeldbModUnload, channeldbModInit,
      channeldbModLoad, h1, h2]

/-! ## Claim C10 -/

/-- C10: when the database file does not exist (`fopen` fails with
`ENOENT`), `read_channeldb` treats this as the first-boot case, returning 1
and creating no channel; any other open failure returns 0, also touching no
channel.  In neither case is an "Added" notice emitted. -/
theorem read_channeldb_open_failure :
    read_channeldb OpenResult.enoent =
      { ret := 1, recs := [], reported := none } ∧
    read_channeldb OpenResult.otherError =
      { ret := 0, recs := [], reported := none } :=
  ⟨rfl, rfl⟩
